import Mathlib

/-!
Verification development for the swarm-janitor repository.

The two scripts `src/scripts/swarm_janitor.py` and `src/scripts/cleanup.py`
are shallowly embedded below.  Filesystem state is explicit: a directory is a
list of file entries, the session registry (`sessions.json`) is an optional
list of entries, and each I/O operation that can raise in Python is modelled
either by an `Option`/flag on the file entry (a raised exception inside a
`try` block) or by `Except` (an uncaught exception).  Timestamps are integer
epoch milliseconds for the janitor (the registry stores `updatedAt` in
milliseconds) and integer epoch seconds for the legacy script.
-/

namespace Janitor

/-- `startsChars pat cs` is true when `pat` is a leading run of `cs`
(the helper behind Python substring containment). -/
def startsChars : List Char → List Char → Bool
  | [], _ => true
  | _ :: _, [] => false
  | a :: as, b :: bs => a == b && startsChars as bs

/-- `containsChars pat cs`: Python `pat in s` on the character list of `s`. -/
def containsChars (pat : List Char) : List Char → Bool
  | [] => startsChars pat []
  | c :: rest => startsChars pat (c :: rest) || containsChars pat rest

/-- Python `needle in hay` for strings (contiguous substring containment). -/
def strContains (needle hay : String) : Bool :=
  containsChars needle.data hay.data

/-- Python `s.endswith(suffix)` (also the semantics of a `*suffix` glob on a
flat file name). -/
def strEndsWith (s suffix : String) : Bool :=
  startsChars suffix.data.reverse s.data.reverse

/-- Index of the last '.' in a character list, if any. -/
def lastDot : List Char → Option Nat
  | [] => none
  | c :: cs =>
    match lastDot cs with
    | some i => some (i + 1)
    | none => if c = '.' then some 0 else none

/-- Python `pathlib.Path(name).stem`: the file name with its final extension
removed; a lone leading dot does not start an extension. -/
def stem (s : String) : String :=
  match lastDot s.data with
  | none => s
  | some 0 => s
  | some i => ⟨s.data.take i⟩

/-- Python `s.strip()` on a character list: whitespace removed at both ends. -/
def trimChars (cs : List Char) : List Char :=
  ((cs.dropWhile Char.isWhitespace).reverse.dropWhile Char.isWhitespace).reverse

/-- Python `s.lower().strip()`, as applied to the confirmation response. -/
def normalize_response (s : String) : String :=
  ⟨trimChars (s.data.map Char.toLower)⟩

/-- Python `not content.strip()`: the string is empty or whitespace-only. -/
def isBlank (s : String) : Bool :=
  s.data.all Char.isWhitespace

/-- `st_size` / `st_mtime` of a file, mtime in epoch milliseconds. -/
structure FileStat where
  size : Nat
  mtime : Int
deriving DecidableEq

/-- One file of the sessions directory.  `stat = none` models a file whose
`stat()` call raises.  The three fault flags model I/O exceptions raised by,
respectively, reading/writing during archival, `unlink()`, and the marker
`touch()`; each such exception is caught by the script's `try` blocks. -/
structure FileEntry where
  name : String
  stat : Option FileStat
  content : String
  archiveFault : Bool
  unlinkFault : Bool
  touchFault : Bool
deriving DecidableEq

/-- One entry of `sessions.json`: `{ <key>: { "sessionId": ..., "updatedAt":
epoch-millis } }`.  A missing `updatedAt` is Python's default `0`. -/
structure RegEntry where
  key : String
  sessionId : String
  updatedAt : Int
deriving DecidableEq

/-- The sessions directory together with its optional registry file.
`registry = none` models a missing or unparseable `sessions.json`. -/
structure DirState where
  dirExists : Bool
  files : List FileEntry
  registry : Option (List RegEntry)
deriving DecidableEq

/-- The dict built per scanned file by `SessionAnalyzer.scan_sessions`. -/
structure SessionRecord where
  file : String
  size_bytes : Nat
  modified : Int
  session_id : String
  is_orphaned : Bool
  reason : List String
deriving DecidableEq

/-- `SessionAnalyzer._is_process_active`: true when some registry entry whose
key or `sessionId` contains the session id has a truthy `updatedAt` whose
age relative to `now` is under one hour (3600000 ms). -/
def is_process_active (registry : Option (List RegEntry)) (now : Int)
    (session_id : String) : Bool :=
  match registry with
  | none => false
  | some entries =>
    entries.any fun s =>
      (strContains session_id s.key || strContains session_id s.sessionId)
        && (s.updatedAt != 0 && decide (now - s.updatedAt < 3600000))

/-- The retention cutoff `datetime.now() - timedelta(days=retention_days)`. -/
def cutoff (retention_days : Nat) (now : Int) : Int :=
  now - (retention_days : Int) * 86400000

/-- The per-file body of `scan_sessions`: builds the record, applies the age
rule, then the liveness rule (which forces `is_orphaned := false` on an
active match without touching the reason list). -/
def analyze_file (retention_days : Nat) (now : Int)
    (registry : Option (List RegEntry)) (name : String) (st : FileStat) :
    SessionRecord :=
  let base : SessionRecord :=
    { file := name, size_bytes := st.size, modified := st.mtime,
      session_id := stem name, is_orphaned := false, reason := [] }
  let withAge : SessionRecord :=
    if st.mtime < cutoff retention_days now then
      { base with
        is_orphaned := true,
        reason := base.reason ++ ["Older than " ++ toString retention_days ++ " days"] }
    else base
  if is_process_active registry now withAge.session_id = false then
    { withAge with
      is_orphaned := true,
      reason := withAge.reason ++ ["No active process"] }
  else
    { withAge with is_orphaned := false }

/-- Candidate filter of the scan loop: glob `*.jsonl`, skip names containing
`.deleted.`, skip files whose `stat()` raises. -/
def scan_file (retention_days : Nat) (now : Int)
    (registry : Option (List RegEntry)) (f : FileEntry) : Option SessionRecord :=
  if strEndsWith f.name ".jsonl" = false then none
  else if strContains ".deleted." f.name then none
  else
    match f.stat with
    | none => none
    | some st => some (analyze_file retention_days now registry f.name st)

/-- Orders records by ascending modification time (Python's stable
`sorted(..., key=lambda x: x["modified"])`). -/
def modifiedLE (a b : SessionRecord) : Prop :=
  a.modified ≤ b.modified

instance : DecidableRel modifiedLE :=
  fun a b => Int.decLe a.modified b.modified

instance : IsTotal SessionRecord modifiedLE :=
  ⟨fun a b => Int.le_total a.modified b.modified⟩

instance : IsTrans SessionRecord modifiedLE :=
  ⟨fun _ _ _ h1 h2 => le_trans h1 h2⟩

/-- `SessionAnalyzer.scan_sessions`: empty on a missing directory, otherwise
the surviving candidates sorted by ascending modification time (a stable
sort, matching Python's). -/
def scan_sessions (d : DirState) (retention_days : Nat) (now : Int) :
    List SessionRecord :=
  if d.dirExists = false then []
  else
    List.insertionSort modifiedLE
      (d.files.filterMap (scan_file retention_days now d.registry))

/-- One record of the local archive store written by the archiver. -/
structure ArchiveEntry where
  session_id : String
  archived_at : Int
  original_path : String
  content_preview : String
deriving DecidableEq

/-- The world the orchestrator mutates: the sessions directory, the
append-only archive store, and the deletion-marker files it creates.
Marker names never end in `.jsonl`, so they are kept apart from the
scanned directory listing. -/
structure World where
  dir : DirState
  archiveStore : List ArchiveEntry
  markers : List String
deriving DecidableEq

/-- Look a file name up in a directory listing (directory names are unique
in any real filesystem state). -/
def findEntry (files : List FileEntry) (name : String) : Option FileEntry :=
  files.find? fun f => f.name == name

/-- `unlink()`: remove the file with the given name. -/
def removeFile (files : List FileEntry) (name : String) : List FileEntry :=
  files.filter fun f => !(f.name == name)

/-- `SuperMemoryArchiver.archive_session`: `false` on a missing file or a
caught I/O exception; `true` without writing on blank content; otherwise
`true` after appending an archive entry with a 1000-character preview.
(The archiver's internal `archived_count`/`failed_count` are write-only
statistics that nothing reads back; they are not modelled.) -/
def archive_session (w : World) (session_path : String) (now : Int) :
    Bool × World :=
  match findEntry w.dir.files session_path with
  | none => (false, w)
  | some fe =>
    if fe.archiveFault then (false, w)
    else if isBlank fe.content then (true, w)
    else
      let entry : ArchiveEntry :=
        { session_id := stem session_path, archived_at := now,
          original_path := session_path,
          content_preview := ⟨fe.content.data.take 1000⟩ }
      (true, { w with archiveStore := w.archiveStore ++ [entry] })

/-- `self.stats` of the orchestrator. -/
structure Stats where
  scanned : Nat
  orphaned : Nat
  archived : Nat
  deleted : Nat
  failed : Nat
  space_reclaimed_bytes : Nat
deriving DecidableEq

/-- Orchestrator configuration: constructor arguments plus the ambient
`SWARM_JANITOR_FORCE` signal and the data that would arrive on stdin
(`userInput = none` models end-of-input / `EOFError`). -/
structure Config where
  retention_days : Nat
  dry_run : Bool
  archive_enabled : Bool
  force : Bool
  userInput : Option String
deriving DecidableEq

/-- Name of the zero-length deletion marker `<name>.deleted.<timestamp>Z`. -/
def markerName (name : String) (now : Int) : String :=
  name ++ ".deleted." ++ toString now ++ "Z"

/-- `SwarmJanitor._confirm_action`: the force signal short-circuits to true;
end-of-input is implicit consent; otherwise the response, lowercased and
stripped, must be exactly "y". -/
def confirm_action (force : Bool) (input : Option String) : Bool :=
  if force then true
  else
    match input with
    | none => true
    | some response => normalize_response response == "y"

/-- Second half of `SwarmJanitor._process_session`: re-stat the file, unlink
it, create the deletion marker, and on full success bump `deleted` and
`space_reclaimed_bytes` together; any raise inside is caught and bumps
`failed` (effects already performed persist). -/
def delete_phase (now : Int) (r : SessionRecord) (st : Stats) (w : World) :
    Stats × World :=
  match findEntry w.dir.files r.file with
  | none => ({ st with failed := st.failed + 1 }, w)
  | some fe =>
    match fe.stat with
    | none => ({ st with failed := st.failed + 1 }, w)
    | some fst =>
      if fe.unlinkFault then ({ st with failed := st.failed + 1 }, w)
      else if fe.touchFault then
        ({ st with failed := st.failed + 1 },
         { w with dir := { w.dir with files := removeFile w.dir.files r.file } })
      else
        ({ st with
           deleted := st.deleted + 1,
           space_reclaimed_bytes := st.space_reclaimed_bytes + fst.size },
         { w with
           dir := { w.dir with files := removeFile w.dir.files r.file },
           markers := w.markers ++ [markerName r.file now] })

/-- `SwarmJanitor._process_session`: archive first when enabled — a failed
archival bumps `failed` and skips deletion — then the delete phase. -/
def process_session (archive_enabled : Bool) (now : Int)
    (acc : Stats × World) (r : SessionRecord) : Stats × World :=
  if archive_enabled then
    if (archive_session acc.2 r.file now).1 then
      delete_phase now r { acc.1 with archived := acc.1.archived + 1 }
        (archive_session acc.2 r.file now).2
    else
      ({ acc.1 with failed := acc.1.failed + 1 }, (archive_session acc.2 r.file now).2)
  else
    delete_phase now r acc.1 acc.2

/-- The processing loop over the orphaned records, in list order. -/
def process_all (archive_enabled : Bool) (now : Int) (st : Stats) (w : World)
    (l : List SessionRecord) : Stats × World :=
  l.foldl (process_session archive_enabled now) (st, w)

/-- The orphaned subset, in scan order. -/
def orphanedOf (records : List SessionRecord) : List SessionRecord :=
  records.filter fun r => r.is_orphaned

/-- The stats after the scanning phase. -/
def initStats (scanned orphanedCount : Nat) : Stats :=
  { scanned := scanned, orphaned := orphanedCount, archived := 0,
    deleted := 0, failed := 0, space_reclaimed_bytes := 0 }

/-- `SwarmJanitor.run`: scan, count, then exit early on an empty orphaned
set, on dry-run, or on a declined confirmation; otherwise process every
orphaned record in scan order. -/
def run (cfg : Config) (w : World) (now : Int) : Stats × World :=
  let records := scan_sessions w.dir cfg.retention_days now
  let orphaned := orphanedOf records
  let st0 := initStats records.length orphaned.length
  if orphaned.isEmpty then (st0, w)
  else if cfg.dry_run then (st0, w)
  else if confirm_action cfg.force cfg.userInput = false then (st0, w)
  else process_all cfg.archive_enabled now st0 w orphaned

/-- Characterization of a single record's fate in the processing loop,
evaluated against the directory listing as it stood when processing began:
the record's file completes deletion exactly when it is present, archival
(when enabled) does not fault, its stat is readable, and neither the unlink
nor the marker touch faults. -/
def completesDeletion (archive_enabled : Bool) (files : List FileEntry)
    (r : SessionRecord) : Bool :=
  match findEntry files r.file with
  | none => false
  | some fe =>
    (!archive_enabled || !fe.archiveFault) && fe.stat.isSome
      && !fe.unlinkFault && !fe.touchFault

/-- Size that deleting the record's file reclaims, read from the listing. -/
def entrySize (files : List FileEntry) (r : SessionRecord) : Nat :=
  match findEntry files r.file with
  | none => 0
  | some fe =>
    match fe.stat with
    | none => 0
    | some fst => fst.size

/-- A file of the legacy `cleanup.py` model: name and creation time
(`os.path.getctime`), in epoch seconds. -/
structure LegacyFile where
  name : String
  ctime : Int
deriving DecidableEq

/-- State touched by `cleanup.py`: the sessions directory and the archive
directory (as a list of file names). -/
structure LegacyState where
  sessionDir : List LegacyFile
  archiveDir : List String
deriving DecidableEq

/-- `cleanup.py`'s `archive_session`: `os.rename` of the session file to
`archived_<name>` in the archive directory; raises `FileNotFoundError`
(uncaught) when the source is missing. -/
def legacy_archive_session (st : LegacyState) (name : String) :
    Except String LegacyState :=
  if st.sessionDir.any (fun f => f.name == name) then
    Except.ok
      { sessionDir := st.sessionDir.filter fun f => !(f.name == name),
        archiveDir := st.archiveDir ++ ["archived_" ++ name] }
  else Except.error "FileNotFoundError"

/-- `os.remove` on a session-directory path; raises when missing. -/
def legacy_remove (st : LegacyState) (name : String) :
    Except String LegacyState :=
  if st.sessionDir.any (fun f => f.name == name) then
    Except.ok { st with sessionDir := st.sessionDir.filter fun f => !(f.name == name) }
  else Except.error "FileNotFoundError"

/-- The orphan rule of `cleanup_sessions`: a `.jsonl` file strictly more
than 7 whole days old by creation time (`timedelta.days` floors). -/
def legacyOrphaned (now : Int) (f : LegacyFile) : Bool :=
  strEndsWith f.name ".jsonl" && decide (7 < Int.fdiv (now - f.ctime) 86400)

/-- `cleanup.py`'s `cleanup_sessions`: collect the orphaned files, then for
each one archive it (a rename) and call `os.remove` on its original path;
an exception anywhere aborts the whole run. -/
def cleanup_sessions (st : LegacyState) (now : Int) : Except String LegacyState :=
  let orphaned := st.sessionDir.filter (legacyOrphaned now)
  orphaned.foldlM
    (fun s f => do
      let s1 ← legacy_archive_session s f.name
      legacy_remove s1 f.name)
    st

/-! ### Concrete states used by witnesses and counterexamples -/

/-- A 10-byte session file whose modification time is far older than any
cutoff used below. -/
def fileC1 : FileEntry :=
  { name := "a.jsonl", stat := some { size := 10, mtime := 0 }, content := "hello",
    archiveFault := false, unlinkFault := false, touchFault := false }

/-- Directory holding `fileC1` next to a registry entry whose key contains
the file's identifier and was updated recently. -/
def dirC1 : DirState :=
  { dirExists := true, files := [fileC1],
    registry := some [{ key := "a-key", sessionId := "xx", updatedAt := 999000000 }] }

/-- A stale session file with no registry at all. -/
def fileC1w : FileEntry :=
  { name := "b.jsonl", stat := some { size := 7, mtime := 0 }, content := "data",
    archiveFault := false, unlinkFault := false, touchFault := false }

def dirC1w : DirState :=
  { dirExists := true, files := [fileC1w], registry := none }

def recC1w : SessionRecord :=
  { file := "b.jsonl", size_bytes := 7, modified := 0, session_id := "b",
    is_orphaned := true, reason := ["Older than 3 days", "No active process"] }

def fileC2 : FileEntry :=
  { name := "c.jsonl", stat := some { size := 4, mtime := 5 }, content := "c",
    archiveFault := false, unlinkFault := false, touchFault := false }

def dirC2 : DirState :=
  { dirExists := true, files := [fileC2],
    registry := some [{ key := "zz", sessionId := "c-123", updatedAt := 999500000 }] }

def fileC3 : FileEntry :=
  { name := "d.jsonl", stat := some { size := 9, mtime := 0 }, content := "dd",
    archiveFault := true, unlinkFault := false, touchFault := false }

def worldC3 : World :=
  { dir := { dirExists := true, files := [fileC3], registry := none },
    archiveStore := [], markers := [] }

def cfgC3 : Config :=
  { retention_days := 3, dry_run := false, archive_enabled := true,
    force := true, userInput := none }

def recC3 : SessionRecord :=
  { file := "d.jsonl", size_bytes := 9, modified := 0, session_id := "d",
    is_orphaned := true, reason := ["Older than 3 days", "No active process"] }

def fileC4 : FileEntry :=
  { name := "e.jsonl", stat := some { size := 3, mtime := 0 }, content := "e",
    archiveFault := false, unlinkFault := false, touchFault := false }

def worldC4 : World :=
  { dir := { dirExists := true, files := [fileC4], registry := none },
    archiveStore := [], markers := [] }

def cfgC4 : Config :=
  { retention_days := 3, dry_run := true, archive_enabled := true,
    force := false, userInput := none }

def fileC6a : FileEntry :=
  { name := "f.jsonl", stat := some { size := 11, mtime := 0 }, content := "ff",
    archiveFault := false, unlinkFault := false, touchFault := false }

def fileC6b : FileEntry :=
  { name := "g.jsonl", stat := some { size := 13, mtime := 1 }, content := "gg",
    archiveFault := true, unlinkFault := false, touchFault := false }

def worldC6 : World :=
  { dir := { dirExists := true, files := [fileC6a, fileC6b], registry := none },
    archiveStore := [], markers := [] }

def cfgC6 : Config :=
  { retention_days := 3, dry_run := false, archive_enabled := true,
    force := true, userInput := none }

def fileC8blank : FileEntry :=
  { name := "h.jsonl", stat := some { size := 2, mtime := 0 }, content := "  ",
    archiveFault := false, unlinkFault := false, touchFault := false }

def fileC8fault : FileEntry :=
  { name := "i.jsonl", stat := some { size := 2, mtime := 0 }, content := "ii",
    archiveFault := true, unlinkFault := false, touchFault := false }

def worldC8 : World :=
  { dir := { dirExists := true, files := [fileC8blank, fileC8fault], registry := none },
    archiveStore := [], markers := [] }

/-! ### Scanner lemmas -/

/-- Closed form of `analyze_file`: the liveness rule alone decides the final
flag (its else-branch overwrites whatever the age rule set), while the
reason list keeps one entry per rule that fired. -/
theorem analyze_file_spec (rd : Nat) (now : Int) (reg : Option (List RegEntry))
    (name : String) (st : FileStat) :
    analyze_file rd now reg name st =
      { file := name, size_bytes := st.size, modified := st.mtime,
        session_id := stem name,
        is_orphaned := !is_process_active reg now (stem name),
        reason :=
          (if st.mtime < cutoff rd now
            then ["Older than " ++ toString rd ++ " days"] else [])
          ++ (if is_process_active reg now (stem name) = false
              then ["No active process"] else []) } := by
  simp only [analyze_file]
  by_cases h1 : st.mtime < cutoff rd now <;>
    cases h2 : is_process_active reg now (stem name) <;>
      simp [h1, h2]

/-- When `scan_file` keeps a candidate, the record is `analyze_file`'s. -/
theorem scan_file_eq_some (rd : Nat) (now : Int) (reg : Option (List RegEntry))
    (f : FileEntry) (r : SessionRecord) :
    scan_file rd now reg f = some r ↔
      strEndsWith f.name ".jsonl" = true ∧ strContains ".deleted." f.name = false ∧
        ∃ st, f.stat = some st ∧ r = analyze_file rd now reg f.name st := by
  unfold scan_file
  cases hE : strEndsWith f.name ".jsonl" <;>
    cases hD : strContains ".deleted." f.name <;>
      cases hS : f.stat <;> simp [hE, hD, hS, eq_comm]

/-- Membership in the scan output, through the final sort. -/
theorem mem_scan_sessions (d : DirState) (rd : Nat) (now : Int) (r : SessionRecord) :
    r ∈ scan_sessions d rd now ↔
      d.dirExists = true ∧ r ∈ d.files.filterMap (scan_file rd now d.registry) := by
  cases hD : d.dirExists
  · simp [scan_sessions, hD]
  · simp [scan_sessions, hD, (List.perm_insertionSort modifiedLE _).mem_iff]

/-- C1, amended: an orphaned record always carries at least one reason, and
a record with reasons but a false flag occurs exactly when the age rule
fired and the liveness rule then found an active process (the age reason is
retained on the forced non-orphaned record). -/
theorem orphaned_implies_reason (d : DirState) (rd : Nat) (now : Int) :
    ∀ r ∈ scan_sessions d rd now,
      (r.is_orphaned = true → r.reason ≠ []) ∧
      (r.reason ≠ [] → r.is_orphaned = true ∨
        (r.modified < cutoff rd now ∧
          is_process_active d.registry now r.session_id = true)) := by
  intro r hr
  rw [mem_scan_sessions] at hr
  obtain ⟨hd, hr⟩ := hr
  rw [List.mem_filterMap] at hr
  obtain ⟨f, hf, hsf⟩ := hr
  rw [scan_file_eq_some] at hsf
  obtain ⟨hE, hD, st, hst, hrec⟩ := hsf
  subst hrec
  rw [analyze_file_spec]
  by_cases h1 : st.mtime < cutoff rd now <;>
    cases h2 : is_process_active d.registry now (stem f.name) <;>
      simp [h1, h2]

/-- Witness for the amended C1 at a concrete stale file with no registry. -/
theorem orphaned_implies_reason_witness :
    recC1w ∈ scan_sessions dirC1w 3 1000000000 ∧
      (recC1w.is_orphaned = true → recC1w.reason ≠ []) :=
  ⟨by decide, (orphaned_implies_reason dirC1w 3 1000000000 recC1w (by decide)).1⟩

/-- C1 as stated is false: a file older than the cutoff whose session has an
active registry entry is forced non-orphaned yet keeps the age reason. -/
theorem orphaned_iff_reason_counterexample :
    ∃ r ∈ scan_sessions dirC1 3 1000000000,
      r.is_orphaned = false ∧ r.reason ≠ [] := by
  refine ⟨{ file := "a.jsonl", size_bytes := 10, modified := 0, session_id := "a",
            is_orphaned := false, reason := ["Older than 3 days"] }, ?_, ?_, ?_⟩ <;>
    decide

/-- C2: a session file whose identifier has a live, recently updated registry
match is scanned into a non-orphaned record — with no constraint on its
modification time, so in particular even when the age rule fired. -/
theorem liveness_overrides_age (d : DirState) (rd : Nat) (now : Int)
    (f : FileEntry) (st : FileStat)
    (hd : d.dirExists = true) (hf : f ∈ d.files)
    (hext : strEndsWith f.name ".jsonl" = true)
    (hmark : strContains ".deleted." f.name = false)
    (hst : f.stat = some st)
    (hact : is_process_active d.registry now (stem f.name) = true) :
    ∃ r ∈ scan_sessions d rd now,
      r.file = f.name ∧ r.session_id = stem f.name ∧ r.is_orphaned = false := by
  refine ⟨analyze_file rd now d.registry f.name st, ?_, ?_⟩
  · rw [mem_scan_sessions]
    exact ⟨hd, List.mem_filterMap.mpr
      ⟨f, hf, (scan_file_eq_some rd now d.registry f _).mpr ⟨hext, hmark, st, hst, rfl⟩⟩⟩
  · rw [analyze_file_spec]
    simp [hact]

/-- Witness for C2: a file 11 days stale kept alive by a `sessionId` match
updated 500 seconds before `now`. -/
theorem liveness_overrides_age_witness :
    (dirC2.dirExists = true ∧ fileC2 ∈ dirC2.files ∧
      strEndsWith fileC2.name ".jsonl" = true ∧
      strContains ".deleted." fileC2.name = false ∧
      fileC2.stat = some { size := 4, mtime := 5 } ∧
      is_process_active dirC2.registry 1000000000 (stem fileC2.name) = true) ∧
    ∃ r ∈ scan_sessions dirC2 3 1000000000,
      r.file = fileC2.name ∧ r.session_id = stem fileC2.name ∧
        r.is_orphaned = false :=
  ⟨by decide,
    liveness_overrides_age dirC2 3 1000000000 fileC2 { size := 4, mtime := 5 }
      (by decide) (by decide) (by decide) (by decide) (by decide) (by decide)⟩

/-- C9: the scan output is sorted by ascending modification time, and the
orphaned sublist the orchestrator folds over — `run` processes exactly
`orphanedOf (scan_sessions ...)` in list order — preserves both the scan
order (it is a sublist) and its sortedness. -/
theorem scan_sorted_and_processing_order (d : DirState) (rd : Nat) (now : Int) :
    List.Sorted modifiedLE (scan_sessions d rd now) ∧
      (orphanedOf (scan_sessions d rd now)).Sublist (scan_sessions d rd now) ∧
      List.Sorted modifiedLE (orphanedOf (scan_sessions d rd now)) := by
  have hs : List.Sorted modifiedLE (scan_sessions d rd now) := by
    unfold scan_sessions
    split
    · exact List.sorted_nil
    · exact List.sorted_insertionSort modifiedLE _
  have hsub : (orphanedOf (scan_sessions d rd now)).Sublist (scan_sessions d rd now) := by
    unfold orphanedOf
    exact List.filter_sublist _
  exact ⟨hs, hsub, List.Pairwise.sublist hsub hs⟩

/-- C10: liveness matching is substring containment of the identifier in
either the registry key or the `sessionId` value, gated by a truthy
`updatedAt` less than an hour (in milliseconds) before `now`. -/
theorem is_process_active_iff (registry : Option (List RegEntry)) (now : Int)
    (sid : String) :
    is_process_active registry now sid = true ↔
      ∃ entries, registry = some entries ∧
        ∃ e ∈ entries,
          (strContains sid e.key = true ∨ strContains sid e.sessionId = true) ∧
          e.updatedAt ≠ 0 ∧ now - e.updatedAt < 3600000 := by
  cases registry with
  | none => simp [is_process_active]
  | some entries => simp [is_process_active, List.any_eq_true, and_assoc]

/-! ### Archiver lemmas -/

theorem archive_session_dir (w : World) (p : String) (now : Int) :
    ((archive_session w p now).2).dir = w.dir := by
  unfold archive_session
  split
  · rfl
  · split
    · rfl
    · split
      · rfl
      · rfl

theorem archive_session_markers (w : World) (p : String) (now : Int) :
    ((archive_session w p now).2).markers = w.markers := by
  unfold archive_session
  split
  · rfl
  · split
    · rfl
    · split
      · rfl
      · rfl

theorem archive_session_missing (w : World) (p : String) (now : Int)
    (h : findEntry w.dir.files p = none) :
    archive_session w p now = (false, w) := by
  simp [archive_session, h]

theorem archive_session_fault (w : World) (p : String) (now : Int)
    (fe : FileEntry) (h : findEntry w.dir.files p = some fe)
    (hf : fe.archiveFault = true) :
    archive_session w p now = (false, w) := by
  simp [archive_session, h, hf]

theorem archive_session_blank (w : World) (p : String) (now : Int)
    (fe : FileEntry) (h : findEntry w.dir.files p = some fe)
    (hf : fe.archiveFault = false) (hb : isBlank fe.content = true) :
    archive_session w p now = (true, w) := by
  simp [archive_session, h, hf, hb]

theorem archive_session_true_iff (w : World) (p : String) (now : Int) :
    (archive_session w p now).1 = true ↔
      ∃ fe, findEntry w.dir.files p = some fe ∧ fe.archiveFault = false := by
  unfold archive_session
  cases h : findEntry w.dir.files p with
  | none => simp
  | some fe =>
    by_cases hf : fe.archiveFault <;> by_cases hb : isBlank fe.content <;>
      simp [hf, hb]

/-! ### Filesystem lemmas -/

theorem find_filter_of_comp {α : Type} (p q : α → Bool) (l : List α)
    (h : ∀ a, q a = true → p a = true) :
    List.find? q (l.filter p) = List.find? q l := by
  induction l with
  | nil => rfl
  | cons a l ih =>
    rw [List.filter_cons]
    by_cases hp : p a
    · rw [if_pos hp]
      by_cases hq : q a
      · rw [List.find?_cons_of_pos _ hq, List.find?_cons_of_pos _ hq]
      · rw [List.find?_cons_of_neg _ hq, List.find?_cons_of_neg _ hq, ih]
    · rw [if_neg hp]
      have hq : ¬ (q a = true) := fun hqt => hp (h a hqt)
      rw [List.find?_cons_of_neg _ hq, ih]

theorem findEntry_removeFile (fs : List FileEntry) (m n : String) (h : n ≠ m) :
    findEntry (removeFile fs m) n = findEntry fs n := by
  unfold findEntry removeFile
  apply find_filter_of_comp
  intro a ha
  have ha2 : a.name = n := beq_iff_eq.mp ha
  simp [ha2]
  exact h

theorem markerName_inj (a b : String) (t : Int) (h : markerName a t = markerName b t) :
    a = b := by
  unfold markerName at h
  have hd : a.data = b.data := by
    have h2 := congrArg String.data h
    simp only [String.data_append, List.append_assoc] at h2
    exact List.append_cancel_right h2
  cases a; cases b; exact congrArg String.mk hd

/-! ### Processing-step lemmas -/

theorem delete_phase_files (now : Int) (r : SessionRecord) (st : Stats) (w : World) :
    ((delete_phase now r st w).2).dir.files = w.dir.files ∨
    ((delete_phase now r st w).2).dir.files = removeFile w.dir.files r.file := by
  unfold delete_phase
  split
  · exact Or.inl rfl
  · split
    · exact Or.inl rfl
    · split
      · exact Or.inl rfl
      · split
        · exact Or.inr rfl
        · exact Or.inr rfl

theorem delete_phase_markers (now : Int) (r : SessionRecord) (st : Stats) (w : World) :
    ((delete_phase now r st w).2).markers = w.markers ∨
    ((delete_phase now r st w).2).markers = w.markers ++ [markerName r.file now] := by
  unfold delete_phase
  split
  · exact Or.inl rfl
  · split
    · exact Or.inl rfl
    · split
      · exact Or.inl rfl
      · split
        · exact Or.inl rfl
        · exact Or.inr rfl

theorem delete_phase_failed_mono (now : Int) (r : SessionRecord) (st : Stats) (w : World) :
    st.failed ≤ (delete_phase now r st w).1.failed := by
  unfold delete_phase
  split
  · exact Nat.le_succ _
  · split
    · exact Nat.le_succ _
    · split
      · exact Nat.le_succ _
      · split
        · exact Nat.le_succ _
        · exact Nat.le.refl

theorem delete_phase_deleted_space (now : Int) (r : SessionRecord) (st : Stats)
    (w : World) :
    (delete_phase now r st w).1.deleted
        = st.deleted + (if completesDeletion false w.dir.files r then 1 else 0) ∧
    (delete_phase now r st w).1.space_reclaimed_bytes
        = st.space_reclaimed_bytes
            + (if completesDeletion false w.dir.files r then entrySize w.dir.files r
               else 0) := by
  unfold delete_phase completesDeletion entrySize
  cases hfe : findEntry w.dir.files r.file with
  | none => simp
  | some fe =>
    cases hst : fe.stat with
    | none => simp [hst]
    | some fst =>
      by_cases hu : fe.unlinkFault <;> by_cases ht : fe.touchFault <;>
        simp [hst, hu, ht]

theorem process_session_files (ae : Bool) (now : Int) (st : Stats) (w : World)
    (r : SessionRecord) :
    ((process_session ae now (st, w) r).2).dir.files = w.dir.files ∨
    ((process_session ae now (st, w) r).2).dir.files = removeFile w.dir.files r.file := by
  have hdir : ((archive_session w r.file now).2).dir.files = w.dir.files :=
    congrArg DirState.files (archive_session_dir w r.file now)
  unfold process_session
  by_cases hae : ae = true
  · rw [if_pos hae]
    by_cases hres : (archive_session w r.file now).1 = true
    · rw [if_pos hres]
      have hd := delete_phase_files now r
        { st with archived := st.archived + 1 } (archive_session w r.file now).2
      rw [hdir] at hd
      exact hd
    · rw [if_neg hres]
      exact Or.inl hdir
  · rw [if_neg hae]
    exact delete_phase_files now r st w

theorem process_session_markers (ae : Bool) (now : Int) (st : Stats) (w : World)
    (r : SessionRecord) :
    ((process_session ae now (st, w) r).2).markers = w.markers ∨
    ((process_session ae now (st, w) r).2).markers
      = w.markers ++ [markerName r.file now] := by
  have hmk : ((archive_session w r.file now).2).markers = w.markers :=
    archive_session_markers w r.file now
  unfold process_session
  by_cases hae : ae = true
  · rw [if_pos hae]
    by_cases hres : (archive_session w r.file now).1 = true
    · rw [if_pos hres]
      have hm := delete_phase_markers now r
        { st with archived := st.archived + 1 } (archive_session w r.file now).2
      rw [hmk] at hm
      exact hm
    · rw [if_neg hres]
      exact Or.inl hmk
  · rw [if_neg hae]
    exact delete_phase_markers now r st w

theorem process_session_failed_mono (ae : Bool) (now : Int) (st : Stats) (w : World)
    (r : SessionRecord) :
    st.failed ≤ (process_session ae now (st, w) r).1.failed := by
  unfold process_session
  by_cases hae : ae = true
  · rw [if_pos hae]
    by_cases hres : (archive_session w r.file now).1 = true
    · rw [if_pos hres]
      exact delete_phase_failed_mono now r
        { st with archived := st.archived + 1 } (archive_session w r.file now).2
    · rw [if_neg hres]
      exact Nat.le_succ _
  · rw [if_neg hae]
    exact delete_phase_failed_mono now r st w

/-- An archive fault on a record's file makes its whole processing step a
no-op on the world, with only `failed` bumped. -/
theorem process_session_fault (now : Int) (st : Stats) (w : World)
    (r : SessionRecord) (fe : FileEntry)
    (hfe : findEntry w.dir.files r.file = some fe) (hf : fe.archiveFault = true) :
    process_session true now (st, w) r = ({ st with failed := st.failed + 1 }, w) := by
  unfold process_session
  rw [if_pos rfl, archive_session_fault w r.file now fe hfe hf]
  rfl

theorem completesDeletion_congr (ae : Bool) (fs1 fs2 : List FileEntry)
    (r : SessionRecord) (h : findEntry fs1 r.file = findEntry fs2 r.file) :
    completesDeletion ae fs1 r = completesDeletion ae fs2 r := by
  unfold completesDeletion
  rw [h]

theorem entrySize_congr (fs1 fs2 : List FileEntry) (r : SessionRecord)
    (h : findEntry fs1 r.file = findEntry fs2 r.file) :
    entrySize fs1 r = entrySize fs2 r := by
  unfold entrySize
  rw [h]

/-- One processing step bumps `deleted` and `space_reclaimed_bytes` exactly
when the record's file completes deletion, and by its stat size. -/
theorem process_session_deleted_space (ae : Bool) (now : Int) (st : Stats)
    (w : World) (r : SessionRecord) :
    (process_session ae now (st, w) r).1.deleted
        = st.deleted + (if completesDeletion ae w.dir.files r then 1 else 0) ∧
    (process_session ae now (st, w) r).1.space_reclaimed_bytes
        = st.space_reclaimed_bytes
            + (if completesDeletion ae w.dir.files r then entrySize w.dir.files r
               else 0) := by
  unfold process_session
  by_cases hae : ae = true
  · rw [if_pos hae]
    by_cases hres : (archive_session w r.file now).1 = true
    · rw [if_pos hres]
      obtain ⟨fe, hfe, hfa⟩ := (archive_session_true_iff w r.file now).mp hres
      have hdir : ((archive_session w r.file now).2).dir.files = w.dir.files :=
        congrArg DirState.files (archive_session_dir w r.file now)
      have hd := delete_phase_deleted_space now r
        { st with archived := st.archived + 1 } (archive_session w r.file now).2
      rw [hdir] at hd
      have hcd : completesDeletion ae w.dir.files r
          = completesDeletion false w.dir.files r := by
        unfold completesDeletion
        rw [hfe]
        simp [hae, hfa]
      rw [hcd]
      exact hd
    · rw [if_neg hres]
      have hcd : completesDeletion ae w.dir.files r = false := by
        unfold completesDeletion
        cases hfe : findEntry w.dir.files r.file with
        | none => rfl
        | some fe =>
          by_cases hfa : fe.archiveFault = true
          · simp [hae, hfa]
          · exact absurd ((archive_session_true_iff w r.file now).mpr
              ⟨fe, hfe, by simpa using hfa⟩) hres
      rw [hcd]
      simp
  · rw [if_neg hae]
    have hd := delete_phase_deleted_space now r st w
    have hcd : completesDeletion ae w.dir.files r
        = completesDeletion false w.dir.files r := by
      have hae2 : ae = false := by revert hae; cases ae <;> simp
      unfold completesDeletion
      cases findEntry w.dir.files r.file with
      | none => rfl
      | some fe => simp [hae2]
    rw [hcd]
    exact hd

/-! ### Processing-loop lemmas -/

theorem process_all_nil (ae : Bool) (now : Int) (st : Stats) (w : World) :
    process_all ae now st w [] = (st, w) := rfl

theorem process_all_cons (ae : Bool) (now : Int) (st : Stats) (w : World)
    (r : SessionRecord) (l : List SessionRecord) :
    process_all ae now st w (r :: l)
      = process_all ae now (process_session ae now (st, w) r).1
          (process_session ae now (st, w) r).2 l := rfl

theorem process_all_append (ae : Bool) (now : Int) (st : Stats) (w : World)
    (l1 l2 : List SessionRecord) :
    process_all ae now st w (l1 ++ l2)
      = process_all ae now (process_all ae now st w l1).1
          (process_all ae now st w l1).2 l2 := by
  unfold process_all
  rw [List.foldl_append]

theorem process_all_failed_mono (ae : Bool) (now : Int) :
    ∀ (l : List SessionRecord) (st : Stats) (w : World),
      st.failed ≤ (process_all ae now st w l).1.failed
  | [], _, _ => Nat.le.refl
  | r :: l, st, w => by
    rw [process_all_cons]
    exact le_trans (process_session_failed_mono ae now st w r)
      (process_all_failed_mono ae now l _ _)

/-- Running the loop never disturbs the directory entry of a file whose
archival faults (its own step fails before deletion, other steps only touch
their own files), and never creates that file's deletion marker. -/
theorem process_all_fault_entry (now : Int) (n : String) (fe : FileEntry)
    (hfa : fe.archiveFault = true) :
    ∀ (l : List SessionRecord) (st : Stats) (w : World),
      findEntry w.dir.files n = some fe →
      findEntry ((process_all true now st w l).2).dir.files n = some fe ∧
      (markerName n now ∉ w.markers →
        markerName n now ∉ ((process_all true now st w l).2).markers)
  | [], _, _, hw => ⟨hw, fun h => h⟩
  | r :: l, st, w, hw => by
    rw [process_all_cons]
    by_cases hrn : r.file = n
    · have hstep := process_session_fault now st w r fe (by rw [hrn]; exact hw) hfa
      rw [hstep]
      exact process_all_fault_entry now n fe hfa l _ w hw
    · have hfe2 : findEntry ((process_session true now (st, w) r).2).dir.files n
          = some fe := by
        rcases process_session_files true now st w r with hF | hF
        · rw [hF]; exact hw
        · rw [hF, findEntry_removeFile _ _ _ (fun e => hrn e.symm)]
          exact hw
      have hia := process_all_fault_entry now n fe hfa l
        (process_session true now (st, w) r).1
        (process_session true now (st, w) r).2 hfe2
      refine ⟨hia.1, fun hm => hia.2 ?_⟩
      rcases process_session_markers true now st w r with hM | hM
      · rw [hM]; exact hm
      · rw [hM]
        intro hmem
        rcases List.mem_append.mp hmem with h1 | h1
        · exact hm h1
        · have he : markerName n now = markerName r.file now :=
            List.mem_singleton.mp h1
          exact hrn (markerName_inj _ _ _ he).symm

/-- If some record of the list names a file whose archival faults, the loop
records at least one more failure than it started with. -/
theorem process_all_fault_failed (now : Int) (fe : FileEntry)
    (hfa : fe.archiveFault = true) (r : SessionRecord)
    (l1 l2 : List SessionRecord) (st : Stats) (w : World)
    (hw : findEntry w.dir.files r.file = some fe) :
    st.failed + 1 ≤ (process_all true now st w (l1 ++ r :: l2)).1.failed := by
  rw [process_all_append, process_all_cons]
  have h1 := (process_all_fault_entry now r.file fe hfa l1 st w hw).1
  have hstep := process_session_fault now (process_all true now st w l1).1
    (process_all true now st w l1).2 r fe h1 hfa
  rw [hstep]
  have h0 := process_all_failed_mono true now l1 st w
  have h2 := process_all_failed_mono true now l2
    { (process_all true now st w l1).1 with
      failed := (process_all true now st w l1).1.failed + 1 }
    (process_all true now st w l1).2
  calc st.failed + 1 ≤ (process_all true now st w l1).1.failed + 1 := by omega
    _ ≤ _ := h2

/-- The loop's `deleted` count and reclaimed bytes, accounted against the
directory listing `base` as it stood before the loop started. -/
theorem process_all_deleted_space (ae : Bool) (now : Int)
    (base : List FileEntry) :
    ∀ (l : List SessionRecord) (st : Stats) (w : World),
      (∀ r2 ∈ l, findEntry w.dir.files r2.file = findEntry base r2.file) →
      (l.map fun r2 => r2.file).Nodup →
      (process_all ae now st w l).1.deleted
          = st.deleted + (l.filter (completesDeletion ae base)).length ∧
      (process_all ae now st w l).1.space_reclaimed_bytes
          = st.space_reclaimed_bytes
              + ((l.filter (completesDeletion ae base)).map (entrySize base)).sum
  | [], st, w, _, _ => by simp [process_all]
  | r :: l, st, w, hpres, hnodup => by
    rw [process_all_cons]
    have hpr := hpres r (List.mem_cons_self r l)
    have hstep := process_session_deleted_space ae now st w r
    rw [completesDeletion_congr ae _ _ r hpr, entrySize_congr _ _ r hpr] at hstep
    rw [List.map_cons, List.nodup_cons] at hnodup
    obtain ⟨hrnot, hnodup⟩ := hnodup
    have hpres2 : ∀ r2 ∈ l,
        findEntry ((process_session ae now (st, w) r).2).dir.files r2.file
          = findEntry base r2.file := by
      intro r2 hr2
      have hne : r2.file ≠ r.file := by
        intro he
        exact hrnot (by rw [← he]; exact List.mem_map_of_mem _ hr2)
      rcases process_session_files ae now st w r with hF | hF
      · rw [hF]; exact hpres r2 (List.mem_cons_of_mem r hr2)
      · rw [hF, findEntry_removeFile _ _ _ hne]
        exact hpres r2 (List.mem_cons_of_mem r hr2)
    have ih := process_all_deleted_space ae now base l
      (process_session ae now (st, w) r).1 (process_session ae now (st, w) r).2
      hpres2 hnodup
    refine ⟨?_, ?_⟩
    · rw [ih.1, hstep.1, List.filter_cons]
      by_cases hc : completesDeletion ae base r = true
      · rw [if_pos hc, if_pos hc, List.length_cons]
        omega
      · rw [if_neg hc, if_neg hc]
        omega
    · rw [ih.2, hstep.2, List.filter_cons]
      by_cases hc : completesDeletion ae base r = true
      · rw [if_pos hc, if_pos hc, List.map_cons, List.sum_cons]
        omega
      · rw [if_neg hc, if_neg hc]
        omega

/-! ### Run-level lemmas -/

theorem run_empty (cfg : Config) (w : World) (now : Int)
    (he : orphanedOf (scan_sessions w.dir cfg.retention_days now) = []) :
    run cfg w now
      = (initStats (scan_sessions w.dir cfg.retention_days now).length
          (orphanedOf (scan_sessions w.dir cfg.retention_days now)).length, w) := by
  simp only [run]
  rw [if_pos (by simp [List.isEmpty_iff, he])]

theorem run_dry (cfg : Config) (w : World) (now : Int)
    (hdry : cfg.dry_run = true)
    (hne : orphanedOf (scan_sessions w.dir cfg.retention_days now) ≠ []) :
    run cfg w now
      = (initStats (scan_sessions w.dir cfg.retention_days now).length
          (orphanedOf (scan_sessions w.dir cfg.retention_days now)).length, w) := by
  simp only [run]
  rw [if_neg (by simp [List.isEmpty_iff, hne]), if_pos hdry]

theorem run_processing (cfg : Config) (w : World) (now : Int)
    (hdry : cfg.dry_run = false)
    (hconf : confirm_action cfg.force cfg.userInput = true)
    (hne : orphanedOf (scan_sessions w.dir cfg.retention_days now) ≠ []) :
    run cfg w now
      = process_all cfg.archive_enabled now
          (initStats (scan_sessions w.dir cfg.retention_days now).length
            (orphanedOf (scan_sessions w.dir cfg.retention_days now)).length)
          w (orphanedOf (scan_sessions w.dir cfg.retention_days now)) := by
  simp only [run]
  rw [if_neg (by simp [List.isEmpty_iff, hne]), if_neg (by simp [hdry]),
    if_neg (by simp [hconf])]

/-! ### Uniqueness of scanned names -/

theorem scan_file_name (rd : Nat) (now : Int) (reg : Option (List RegEntry))
    (f : FileEntry) (r : SessionRecord) (h : scan_file rd now reg f = some r) :
    r.file = f.name := by
  rw [scan_file_eq_some] at h
  obtain ⟨_, _, st, _, hrec⟩ := h
  rw [hrec, analyze_file_spec]

theorem filterMap_scan_names_sublist (rd : Nat) (now : Int)
    (reg : Option (List RegEntry)) :
    ∀ files : List FileEntry,
      ((files.filterMap (scan_file rd now reg)).map fun r => r.file).Sublist
        (files.map fun f => f.name)
  | [] => List.Sublist.refl _
  | f :: files => by
    cases hs : scan_file rd now reg f with
    | none =>
      simp only [List.filterMap_cons, hs, List.map_cons]
      exact (filterMap_scan_names_sublist rd now reg files).cons _
    | some r =>
      simp only [List.filterMap_cons, hs, List.map_cons]
      rw [scan_file_name rd now reg f r hs]
      exact (filterMap_scan_names_sublist rd now reg files).cons₂ _

theorem scan_names_nodup (d : DirState) (rd : Nat) (now : Int)
    (h : (d.files.map fun f => f.name).Nodup) :
    ((scan_sessions d rd now).map fun r => r.file).Nodup := by
  unfold scan_sessions
  split
  · simp
  · have hperm := (List.perm_insertionSort modifiedLE
      (d.files.filterMap (scan_file rd now d.registry))).map fun r => r.file
    exact hperm.nodup_iff.mpr
      (List.Nodup.sublist (filterMap_scan_names_sublist rd now d.registry d.files) h)

theorem orphaned_names_nodup (d : DirState) (rd : Nat) (now : Int)
    (h : (d.files.map fun f => f.name).Nodup) :
    ((orphanedOf (scan_sessions d rd now)).map fun r => r.file).Nodup := by
  have hsub : (orphanedOf (scan_sessions d rd now)).Sublist (scan_sessions d rd now) := by
    unfold orphanedOf
    exact List.filter_sublist _
  exact List.Nodup.sublist (hsub.map _) (scan_names_nodup d rd now h)

/-! ### Orchestrator claims -/

/-- C4: dry-run is read-only even with a non-empty orphaned set — the run
returns the world untouched (so no file is deleted, no archive entry is
written, no marker is created) and zero deleted, archived, failed and
reclaimed-bytes counters. -/
theorem dry_run_is_frame (cfg : Config) (w : World) (now : Int)
    (hdry : cfg.dry_run = true)
    (hne : orphanedOf (scan_sessions w.dir cfg.retention_days now) ≠ []) :
    (run cfg w now).2 = w ∧
    (run cfg w now).1.deleted = 0 ∧ (run cfg w now).1.archived = 0 ∧
    (run cfg w now).1.failed = 0 ∧
    (run cfg w now).1.space_reclaimed_bytes = 0 := by
  rw [run_dry cfg w now hdry hne]
  exact ⟨rfl, rfl, rfl, rfl, rfl⟩

/-- Witness for C4 at a one-stale-file directory with a dry-run config. -/
theorem dry_run_is_frame_witness :
    (cfgC4.dry_run = true ∧
      orphanedOf (scan_sessions worldC4.dir cfgC4.retention_days 1000000000) ≠ []) ∧
    ((run cfgC4 worldC4 1000000000).2 = worldC4 ∧
      (run cfgC4 worldC4 1000000000).1.deleted = 0 ∧
      (run cfgC4 worldC4 1000000000).1.archived = 0 ∧
      (run cfgC4 worldC4 1000000000).1.failed = 0 ∧
      (run cfgC4 worldC4 1000000000).1.space_reclaimed_bytes = 0) :=
  ⟨⟨rfl, by decide⟩, dry_run_is_frame cfgC4 worldC4 1000000000 rfl (by decide)⟩

/-- C3: in destructive mode with archiving enabled, an orphaned record whose
archival fails keeps its file in the directory after the whole run, gets no
deletion marker, and bumps the failed count. -/
theorem archive_failure_skips_deletion (cfg : Config) (w : World) (now : Int)
    (r : SessionRecord) (fe : FileEntry)
    (hdry : cfg.dry_run = false)
    (hae : cfg.archive_enabled = true)
    (hconf : confirm_action cfg.force cfg.userInput = true)
    (hr : r ∈ orphanedOf (scan_sessions w.dir cfg.retention_days now))
    (hfe : findEntry w.dir.files r.file = some fe)
    (hfa : fe.archiveFault = true)
    (hm : markerName r.file now ∉ w.markers) :
    findEntry ((run cfg w now).2).dir.files r.file = some fe ∧
    markerName r.file now ∉ ((run cfg w now).2).markers ∧
    1 ≤ (run cfg w now).1.failed := by
  have hne : orphanedOf (scan_sessions w.dir cfg.retention_days now) ≠ [] :=
    List.ne_nil_of_mem hr
  have hrun : run cfg w now
      = process_all true now
          (initStats (scan_sessions w.dir cfg.retention_days now).length
            (orphanedOf (scan_sessions w.dir cfg.retention_days now)).length)
          w (orphanedOf (scan_sessions w.dir cfg.retention_days now)) := by
    rw [run_processing cfg w now hdry hconf hne, hae]
  rw [hrun]
  have hent := process_all_fault_entry now r.file fe hfa
    (orphanedOf (scan_sessions w.dir cfg.retention_days now))
    (initStats (scan_sessions w.dir cfg.retention_days now).length
      (orphanedOf (scan_sessions w.dir cfg.retention_days now)).length) w hfe
  refine ⟨hent.1, hent.2 hm, ?_⟩
  obtain ⟨l1, l2, hsplit⟩ := List.append_of_mem hr
  rw [hsplit]
  have h3 := process_all_fault_failed now fe hfa r l1 l2
    (initStats (scan_sessions w.dir cfg.retention_days now).length
      (l1 ++ r :: l2).length) w hfe
  simpa [initStats] using h3

/-- Witness for C3: one stale file whose archival faults, force-confirmed
destructive run. -/
theorem archive_failure_skips_deletion_witness :
    (recC3 ∈ orphanedOf (scan_sessions worldC3.dir cfgC3.retention_days 1000000000) ∧
      findEntry worldC3.dir.files recC3.file = some fileC3 ∧
      fileC3.archiveFault = true) ∧
    (findEntry ((run cfgC3 worldC3 1000000000).2).dir.files recC3.file = some fileC3 ∧
      markerName recC3.file 1000000000 ∉ ((run cfgC3 worldC3 1000000000).2).markers ∧
      1 ≤ (run cfgC3 worldC3 1000000000).1.failed) :=
  ⟨⟨by decide, by decide, rfl⟩,
    archive_failure_skips_deletion cfgC3 worldC3 1000000000 recC3 fileC3
      rfl rfl (by decide) (by decide) (by decide) rfl (by decide)⟩

/-- C6: over a completed destructive run, `deleted` counts exactly the
orphaned records whose step completes deletion, and the reclaimed bytes are
the sum of precisely those records' on-disk sizes — records that fail
archival or fail deletion contribute nothing. -/
theorem deleted_space_accounting (cfg : Config) (w : World) (now : Int)
    (hnodup : (w.dir.files.map fun f => f.name).Nodup)
    (hdry : cfg.dry_run = false)
    (hconf : confirm_action cfg.force cfg.userInput = true) :
    (run cfg w now).1.deleted
        = ((orphanedOf (scan_sessions w.dir cfg.retention_days now)).filter
            (completesDeletion cfg.archive_enabled w.dir.files)).length ∧
    (run cfg w now).1.space_reclaimed_bytes
        = (((orphanedOf (scan_sessions w.dir cfg.retention_days now)).filter
            (completesDeletion cfg.archive_enabled w.dir.files)).map
              (entrySize w.dir.files)).sum := by
  by_cases hne : orphanedOf (scan_sessions w.dir cfg.retention_days now) = []
  · rw [run_empty cfg w now hne, hne]
    exact ⟨rfl, rfl⟩
  · rw [run_processing cfg w now hdry hconf hne]
    have h := process_all_deleted_space cfg.archive_enabled now w.dir.files
      (orphanedOf (scan_sessions w.dir cfg.retention_days now))
      (initStats (scan_sessions w.dir cfg.retention_days now).length
        (orphanedOf (scan_sessions w.dir cfg.retention_days now)).length)
      w (fun _ _ => rfl)
      (orphaned_names_nodup w.dir cfg.retention_days now hnodup)
    simpa [initStats] using h

/-- Witness for C6: two stale files, one of which archives and deletes
cleanly (11 bytes) while the other faults during archival. -/
theorem deleted_space_accounting_witness :
    ((worldC6.dir.files.map fun f => f.name).Nodup ∧
      confirm_action cfgC6.force cfgC6.userInput = true) ∧
    ((run cfgC6 worldC6 1000000000).1.deleted
        = ((orphanedOf (scan_sessions worldC6.dir cfgC6.retention_days 1000000000)).filter
            (completesDeletion cfgC6.archive_enabled worldC6.dir.files)).length ∧
      (run cfgC6 worldC6 1000000000).1.space_reclaimed_bytes
        = (((orphanedOf (scan_sessions worldC6.dir cfgC6.retention_days 1000000000)).filter
            (completesDeletion cfgC6.archive_enabled worldC6.dir.files)).map
              (entrySize worldC6.dir.files)).sum) :=
  ⟨⟨by decide, by decide⟩,
    deleted_space_accounting cfgC6 worldC6 1000000000 (by decide) rfl (by decide)⟩

/-- C7: confirmation: the force signal short-circuits to consent; otherwise
consent holds exactly for the lowercased-and-stripped response "y" or for
absent input (end-of-input is implicit consent); everything else declines. -/
theorem confirm_action_spec (force : Bool) (input : Option String) :
    confirm_action force input = true ↔
      (force = true ∨ input = none ∨
        ∃ s, input = some s ∧ normalize_response s = "y") := by
  cases force
  · cases input with
    | none => simp [confirm_action]
    | some s => simp [confirm_action]
  · simp [confirm_action]

/-- C8: the archiver's boundary contract: blank content is a vacuous success
that writes nothing; a missing file or a faulted read/write is a returned
failure (never a raise), also writing nothing. -/
theorem archive_session_boundary (w : World) (p : String) (now : Int) :
    (∀ fe, findEntry w.dir.files p = some fe → fe.archiveFault = false →
      isBlank fe.content = true → archive_session w p now = (true, w)) ∧
    (findEntry w.dir.files p = none → archive_session w p now = (false, w)) ∧
    (∀ fe, findEntry w.dir.files p = some fe → fe.archiveFault = true →
      archive_session w p now = (false, w)) :=
  ⟨fun fe h hf hb => archive_session_blank w p now fe h hf hb,
   fun h => archive_session_missing w p now h,
   fun fe h hf => archive_session_fault w p now fe h hf⟩

/-- Witness for C8: a whitespace-only file succeeds without writing, a
missing path fails, a faulted file fails. -/
theorem archive_session_boundary_witness :
    archive_session worldC8 "h.jsonl" 5 = (true, worldC8) ∧
    archive_session worldC8 "missing.jsonl" 5 = (false, worldC8) ∧
    archive_session worldC8 "i.jsonl" 5 = (false, worldC8) :=
  ⟨(archive_session_boundary worldC8 "h.jsonl" 5).1 fileC8blank (by decide) rfl (by decide),
   (archive_session_boundary worldC8 "missing.jsonl" 5).2.1 (by decide),
   (archive_session_boundary worldC8 "i.jsonl" 5).2.2 fileC8fault (by decide) rfl⟩

/-- C5 fails because `cleanup.py` is broken: its `archive_session` renames
the file into the archive directory, after which the script's `os.remove`
on the original path must raise `FileNotFoundError`; on a directory with a
single 8-day-old session the whole run aborts instead of mirroring the
orchestrator's age-only degenerate configuration. -/
theorem cleanup_sessions_raises_on_orphan :
    cleanup_sessions
        { sessionDir := [{ name := "a.jsonl", ctime := 0 }], archiveDir := [] }
        691201
      = Except.error "FileNotFoundError" := rfl

end Janitor
